import Mathlib

/-!
Verification of the configurable assessment pipeline (src/api/index.py).

The embedding below translates the pure core of the program:
  - `build_header_row`   : the spreadsheet header projector,
  - `build_data_row`     : the row built inside `append_to_sheet`,
  - `append_to_sheet`    : the orchestration of header-drift reconciliation
                           plus append, over an explicit `Sheet` state
                           (gspread calls become pure state updates; the
                           `readOk` flag models a read that raises),
  - `parse_json_response`: fence-regex extraction, brace scanning and a
                           model of Python's strict `json.loads`,
  - `build_assessment_prompt`: the prompt compiler.

Python dicts are modelled as association lists in insertion order; dict
values reached by the modelled code are strings.  Machine details outside
the claims (HTTP, network, credentials, Drive upload) are not modelled.
-/

set_option maxRecDepth 20000

/-- A metadata field of the schema (`metadata_fields` entries in
`config/questions.json`): an id and a display label. -/
structure MetaField where
  id : String
  label : String
deriving Repr, DecidableEq

/-- An AI-inferred field (`ai_inferred_fields` entries): id, label and the
closed set of allowed options. -/
structure AIField where
  id : String
  label : String
  options : List String
deriving Repr, DecidableEq

/-- An evaluation category (`categories` entries): id, display name and
optional guidance text. -/
structure Category where
  id : String
  name : String
  guidance : Option String
deriving Repr, DecidableEq

/-- The loaded configuration (the schema): ordered field lists plus the
allowed overall rating options (`overall_rating.options`). -/
structure Config where
  metadata_fields : List MetaField
  ai_inferred_fields : List AIField
  categories : List Category
  rating_options : List String
deriving Repr, DecidableEq

/-- `d.get k` for a Python dict modelled as an association list: the value
of the first matching key, if any. -/
def lookup? (m : List (String × String)) (k : String) : Option String :=
  (m.find? (fun kv => kv.1 == k)).map (fun kv => kv.2)

/-- `d.get k default`. -/
def lookupD (m : List (String × String)) (k d : String) : String :=
  (lookup? m k).getD d

/-- The `LABEL_OVERRIDES` table of `build_header_row`. -/
def LABEL_OVERRIDES : List (String × String) :=
  [("assessor_name", "Assessor Name"),
   ("assessor_email", "Email"),
   ("building", "Building"),
   ("screen_location", "Screen Location"),
   ("reviewed_on", "Date Reviewed"),
   ("floor_owner", "Floor Owner")]

/-- `build_header_row(config)`: the header sequence, built by successive
appends exactly as the Python loops do. -/
def build_header_row (config : Config) : List String :=
  let headers := ["Timestamp"]
  let headers := config.metadata_fields.foldl
    (fun hs f => hs ++ [(lookup? LABEL_OVERRIDES f.id).getD f.label]) headers
  let headers := config.ai_inferred_fields.foldl (fun hs f => hs ++ [f.label]) headers
  let headers := headers ++ ["Image Link"]
  let headers := config.categories.foldl (fun hs c => hs ++ [c.name]) headers
  let headers := headers ++ ["Accessibility Rating"]
  let headers := headers ++ ["AI Additional Comments"]
  let headers := headers ++ ["Assessor Comments"]
  let headers := headers ++ ["Overall Notes"]
  headers ++ ["AI Additional Context"]

/-- The submission payload reaching `append_to_sheet` (the JSON body of
`/api/submit` plus the already-computed image link). -/
structure Submission where
  metadata : List (String × String)
  assessments : List (String × String)
  inferred_metadata : List (String × String)
  accessibility_rating : String
  final_comments : String
  assessor_comments : String
  overall_notes : String
  image_link : String
deriving Repr, DecidableEq

/-- One metadata cell of the data row, as computed in `append_to_sheet`:
the submitted value, with the `"Other"`-plus-`"<id>_other"` substitution. -/
def metadataCell (metadata : List (String × String)) (f : MetaField) : String :=
  let value := lookupD metadata f.id ""
  let other_value := lookupD metadata (f.id ++ "_other") ""
  if value = "Other" ∧ other_value ≠ "" then "Other: " ++ other_value else value

/-- The trailing "additional context" cell: every non-empty
`inferred_metadata` entry whose key is not a declared AI-field id,
rendered `"key: value"` and joined with `", "`. -/
def extraInferred (config : Config) (s : Submission) : String :=
  let ai_field_ids := config.ai_inferred_fields.map (fun f => f.id)
  String.intercalate ", "
    ((s.inferred_metadata.filter (fun kv => kv.2 ≠ "" ∧ kv.1 ∉ ai_field_ids)).map
      (fun kv => kv.1 ++ ": " ++ kv.2))

/-- The data row built inside `append_to_sheet` (its pure row-construction
portion), with `ts` the formatted timestamp string. -/
def build_data_row (config : Config) (ts : String) (s : Submission) : List String :=
  let row := [ts]
  let row := config.metadata_fields.foldl (fun r f => r ++ [metadataCell s.metadata f]) row
  let row := config.ai_inferred_fields.foldl
    (fun r f => r ++ [lookupD s.inferred_metadata f.id ""]) row
  let row := row ++ [s.image_link]
  let row := config.categories.foldl
    (fun r c => r ++ [lookupD s.assessments c.id ""]) row
  let row := row ++ [s.accessibility_rating]
  let row := row ++ [s.final_comments]
  let row := row ++ [s.assessor_comments]
  let row := row ++ [s.overall_notes]
  row ++ [extraInferred config s]

/-- The spreadsheet, modelled as its list of rows (row 1 first). -/
structure Sheet where
  rows : List (List String)
deriving Repr, DecidableEq

/-- `Sheet.ReadCell(r, c)` (1-indexed), `none` when the cell is absent. -/
def readCell (sheet : Sheet) (r c : Nat) : Option String :=
  match sheet.rows[r - 1]? with
  | some row => row[c - 1]?
  | none => none

/-- `sheet.update(range_name='A1', values=[headers])`: overwrite row 1
(creating it on an empty sheet), per the Sheet.WriteRow collaborator
contract. -/
def writeHeaderRow (sheet : Sheet) (headers : List String) : Sheet :=
  match sheet.rows with
  | [] => ⟨[headers]⟩
  | _ :: rest => ⟨headers :: rest⟩

/-- `sheet.append_row(row)`. -/
def appendRow (sheet : Sheet) (row : List String) : Sheet :=
  ⟨sheet.rows ++ [row]⟩

/-- `append_to_sheet`: read the first cell (`readOk = false` models the
`except` branch where the read raises), overwrite row 1 with a fresh
header when that cell is not `"Timestamp"`, then append the data row. -/
def append_to_sheet (config : Config) (sheet : Sheet) (readOk : Bool)
    (ts : String) (s : Submission) : Sheet :=
  let headers := build_header_row config
  let first_cell := if readOk then readCell sheet 1 1 else none
  let sheet2 := if first_cell ≠ some "Timestamp" then writeHeaderRow sheet headers else sheet
  appendRow sheet2 (build_data_row config ts s)

/-- The header sequence as claim C3 words it (`Final Comments`, then
`Overall Notes`, plus an optional human-entered `Assessor Comments`
column, then `AI Additional Context`). -/
def specHeader (config : Config) (assessorEnabled : Bool) : List String :=
  ["Timestamp"]
    ++ config.metadata_fields.map (fun f => (lookup? LABEL_OVERRIDES f.id).getD f.label)
    ++ config.ai_inferred_fields.map (fun f => f.label)
    ++ ["Image Link"]
    ++ config.categories.map (fun c => c.name)
    ++ ["Accessibility Rating", "Final Comments", "Overall Notes"]
    ++ (if assessorEnabled then ["Assessor Comments"] else [])
    ++ ["AI Additional Context"]

/-- The metadata-cell rule as claim C4 words it: the submitted value,
except that when it equals the sentinel `"Other"` and the paired
`"<id>_other"` key is present with a non-empty value, the cell is
`"Other: <that value>"`. -/
def claimMetaCell (metadata : List (String × String)) (fid : String) : String :=
  let submitted := lookupD metadata fid ""
  match lookup? metadata (fid ++ "_other") with
  | some ov => if submitted = "Other" ∧ ov ≠ "" then "Other: " ++ ov else submitted
  | none => submitted

/-- The opening-brace character (Python `'\x7b'`). -/
def lbrace : Char := Char.ofNat 123

/-- The closing-brace character (Python `'\x7d'`). -/
def rbrace : Char := Char.ofNat 125

/-- The backtick character. -/
def btick : Char := Char.ofNat 96

/-- A value as produced by Python's `json.loads` (numbers kept as their
lexeme, which is enough for the structural claims here; a `\uXXXX` escape
is decoded with `Char.ofNat`). -/
inductive JsonValue where
  | null
  | bool (b : Bool)
  | num (lexeme : String)
  | str (s : String)
  | arr (items : List JsonValue)
  | obj (members : List (String × JsonValue))
deriving Repr

/-- JSON whitespace as skipped by `json.loads` (space, tab, newline,
carriage return). -/
def jsonWs (c : Char) : Bool :=
  c = ' ' ∨ c = '\t' ∨ c = '\n' ∨ c = '\r'

/-- Drop leading JSON whitespace. -/
def skipWs : List Char → List Char
  | [] => []
  | c :: rest => if jsonWs c then skipWs rest else c :: rest

/-- Hex digit value. -/
def hexVal (c : Char) : Option Nat :=
  if '0' ≤ c ∧ c ≤ '9' then some (c.toNat - '0'.toNat)
  else if 'a' ≤ c ∧ c ≤ 'f' then some (c.toNat - 'a'.toNat + 10)
  else if 'A' ≤ c ∧ c ≤ 'F' then some (c.toNat - 'A'.toNat + 10)
  else none

/-- Parse the body of a JSON string literal (after the opening quote):
returns the decoded characters and the input after the closing quote.
Strict mode: unescaped control characters and unknown escapes fail. -/
def parseStrChars : List Char → Option (List Char × List Char)
  | [] => none
  | c :: rest =>
    if c = '"' then some ([], rest)
    else if c = '\\' then
      match rest with
      | [] => none
      | e :: rest2 =>
        if e = '"' ∨ e = '\\' ∨ e = '/' then
          (parseStrChars rest2).map (fun r => (e :: r.1, r.2))
        else if e = 'b' then (parseStrChars rest2).map (fun r => ('\x08' :: r.1, r.2))
        else if e = 'f' then (parseStrChars rest2).map (fun r => ('\x0c' :: r.1, r.2))
        else if e = 'n' then (parseStrChars rest2).map (fun r => ('\n' :: r.1, r.2))
        else if e = 'r' then (parseStrChars rest2).map (fun r => ('\r' :: r.1, r.2))
        else if e = 't' then (parseStrChars rest2).map (fun r => ('\t' :: r.1, r.2))
        else if e = 'u' then
          match rest2 with
          | h1 :: h2 :: h3 :: h4 :: rest3 =>
            match hexVal h1, hexVal h2, hexVal h3, hexVal h4 with
            | some v1, some v2, some v3, some v4 =>
              (parseStrChars rest3).map
                (fun r => (Char.ofNat (((v1 * 16 + v2) * 16 + v3) * 16 + v4) :: r.1, r.2))
            | _, _, _, _ => none
          | _ => none
        else none
    else if c.toNat < 32 then none
    else (parseStrChars rest).map (fun r => (c :: r.1, r.2))

/-- Split off leading decimal digits. -/
def takeDigits : List Char → List Char × List Char
  | [] => ([], [])
  | c :: rest =>
    if c.isDigit then
      let r := takeDigits rest
      (c :: r.1, r.2)
    else ([], c :: rest)

/-- Lex a JSON number starting at the current position: returns the lexeme
and the rest.  Grammar: `-? (0 | [1-9][0-9]*) (\.[0-9]+)? ([eE][+-]?[0-9]+)?`. -/
def parseNumberLit (cs : List Char) : Option (List Char × List Char) :=
  let (sign, cs1) :=
    match cs with
    | c :: rest => if c = '-' then (['-'], rest) else (([] : List Char), cs)
    | [] => ([], cs)
  match cs1 with
  | [] => none
  | d :: rest1 =>
    if ¬ d.isDigit then none
    else
      let (ipart, cs2) :=
        if d = '0' then ([d], rest1)
        else
          let r := takeDigits rest1
          (d :: r.1, r.2)
      let (fpart, cs3) :=
        match cs2 with
        | p :: rest2 =>
          if p = '.' then
            match takeDigits rest2 with
            | ([], _) => ([], cs2)
            | (ds, rest3) => (p :: ds, rest3)
          else ([], cs2)
        | [] => ([], cs2)
      let (epart, cs4) :=
        match cs3 with
        | e :: rest4 =>
          if e = 'e' ∨ e = 'E' then
            let (esign, rest5) :=
              match rest4 with
              | s :: rest5 => if s = '+' ∨ s = '-' then ([s], rest5) else (([] : List Char), rest4)
              | [] => ([], rest4)
            match takeDigits rest5 with
            | ([], _) => ([], cs3)
            | (ds, rest6) => (e :: (esign ++ ds), rest6)
          else ([], cs3)
        | [] => ([], cs3)
      some (sign ++ ipart ++ fpart ++ epart, cs4)

/-- Parsing mode: a whole value, the remaining items of an array, or the
remaining members of an object. -/
inductive JMode where
  | value
  | arrTail (acc : List JsonValue)
  | objTail (acc : List (String × JsonValue))

/-- Recursive descent for `json.loads` (fuel-driven so that it is
structural and computes by `rfl`/`decide`).  Callers skip leading
whitespace before `.value`. -/
def jparse : Nat → JMode → List Char → Option (JsonValue × List Char)
  | 0, _, _ => none
  | fuel + 1, JMode.value, cs =>
    match cs with
    | [] => none
    | c :: rest =>
      if c = lbrace then
        match skipWs rest with
        | d :: rest3 =>
          if d = rbrace then some (JsonValue.obj [], rest3)
          else jparse fuel (JMode.objTail []) (d :: rest3)
        | [] => none
      else if c = '[' then
        match skipWs rest with
        | d :: rest3 =>
          if d = ']' then some (JsonValue.arr [], rest3)
          else jparse fuel (JMode.arrTail []) (d :: rest3)
        | [] => none
      else if c = '"' then
        (parseStrChars rest).map (fun r => (JsonValue.str (String.mk r.1), r.2))
      else if c = 't' then
        match rest with
        | 'r' :: 'u' :: 'e' :: r => some (JsonValue.bool true, r)
        | _ => none
      else if c = 'f' then
        match rest with
        | 'a' :: 'l' :: 's' :: 'e' :: r => some (JsonValue.bool false, r)
        | _ => none
      else if c = 'n' then
        match rest with
        | 'u' :: 'l' :: 'l' :: r => some (JsonValue.null, r)
        | _ => none
      else if c = 'N' then
        match rest with
        | 'a' :: 'N' :: r => some (JsonValue.num "NaN", r)
        | _ => none
      else if c = 'I' then
        match rest with
        | 'n' :: 'f' :: 'i' :: 'n' :: 'i' :: 't' :: 'y' :: r => some (JsonValue.num "Infinity", r)
        | _ => none
      else if c = '-' ∨ c.isDigit then
        match cs with
        | '-' :: 'I' :: 'n' :: 'f' :: 'i' :: 'n' :: 'i' :: 't' :: 'y' :: r =>
          some (JsonValue.num "-Infinity", r)
        | _ => (parseNumberLit cs).map (fun r => (JsonValue.num (String.mk r.1), r.2))
      else none
  | fuel + 1, JMode.arrTail acc, cs =>
    match jparse fuel JMode.value cs with
    | none => none
    | some (v, rest) =>
      match skipWs rest with
      | c :: rest3 =>
        if c = ',' then jparse fuel (JMode.arrTail (acc ++ [v])) (skipWs rest3)
        else if c = ']' then some (JsonValue.arr (acc ++ [v]), rest3)
        else none
      | [] => none
  | fuel + 1, JMode.objTail acc, cs =>
    match cs with
    | c :: rest =>
      if c = '"' then
        match parseStrChars rest with
        | none => none
        | some (k, rest2) =>
          match skipWs rest2 with
          | d :: rest3 =>
            if d = ':' then
              match jparse fuel JMode.value (skipWs rest3) with
              | none => none
              | some (v, rest4) =>
                match skipWs rest4 with
                | e :: rest5 =>
                  if e = ',' then
                    jparse fuel (JMode.objTail (acc ++ [(String.mk k, v)])) (skipWs rest5)
                  else if e = rbrace then
                    some (JsonValue.obj (acc ++ [(String.mk k, v)]), rest5)
                  else none
                | [] => none
            else none
          | [] => none
      else none
    | [] => none

/-- Model of `json.loads`: parse one value, allowing surrounding
whitespace, and require the whole input to be consumed. -/
def jsonParse (s : String) : Option JsonValue :=
  match jparse (2 * s.data.length + 4) JMode.value (skipWs s.data) with
  | some (v, rest) => if skipWs rest = [] then some v else none
  | none => none

/-- A character of Python's `\s` class (ASCII range). -/
def wsChar (c : Char) : Bool :=
  c = ' ' ∨ c = '\t' ∨ c = '\n' ∨ c = '\r' ∨ c = '\x0b' ∨ c = '\x0c'

/-- Does the input start with three backticks (the closing fence of the
pattern), after an optional single newline?  This is the tail
`\n?` ++ three backticks of the fence regex. -/
def isTicks : List Char → Bool
  | a :: b :: c :: _ => a = btick ∧ b = btick ∧ c = btick
  | _ => false

/-- Matcher for the regex tail after the lazy group: `\n?` then three
backticks (anything may follow; `re.search` does not anchor the end). -/
def tailMatch (cs : List Char) : Bool :=
  isTicks cs ||
    (match cs with
     | a :: rest => a = '\n' && isTicks rest
     | [] => false)

/-- The lazy group `(.*?)` with the DOTALL flag: capture the shortest
prefix whose remainder matches the closing `\n?` fence. -/
def matchLazy : List Char → Option (List Char)
  | [] => if tailMatch [] then some [] else none
  | c :: rest =>
    if tailMatch (c :: rest) then some []
    else (matchLazy rest).map (fun g => c :: g)

/-- The optional `\n?` before the lazy group: prefer consuming a newline,
backtrack to not consuming it. -/
def matchNl1 (cs : List Char) : Option (List Char) :=
  match cs with
  | c :: _ =>
    if c = '\n' then
      match matchLazy cs.tail with
      | some g => some g
      | none => matchLazy cs
    else matchLazy cs
  | [] => matchLazy cs

/-- Length of the run of leading `\s` characters. -/
def wsRun : List Char → Nat
  | [] => 0
  | c :: rest => if wsChar c then wsRun rest + 1 else 0

/-- Greedy `\s*` with backtracking: try consuming `k` whitespace
characters, largest first. -/
def tryWs : Nat → List Char → Option (List Char)
  | 0, cs => matchNl1 cs
  | k + 1, cs =>
    match matchNl1 (cs.drop (k + 1)) with
    | some g => some g
    | none => tryWs k cs

/-- The `\s*\n?(.*?)\n?` fence part of the regex. -/
def matchWs (cs : List Char) : Option (List Char) :=
  tryWs (wsRun cs) cs

/-- Try the whole fence pattern anchored at the current position: three
backticks, optional `json` tag (greedy, with backtracking), `\s*`,
optional newline, lazy capture, closing fence. -/
def matchAt (cs : List Char) : Option (List Char) :=
  match cs with
  | c1 :: c2 :: c3 :: rest =>
    if c1 = btick ∧ c2 = btick ∧ c3 = btick then
      if rest.take 4 = ['j', 's', 'o', 'n'] then
        match matchWs (rest.drop 4) with
        | some g => some g
        | none => matchWs rest
      else matchWs rest
    else none
  | _ => none

/-- `re.search` of the fence pattern: leftmost starting position that
admits a match; returns the captured group. -/
def fenceSearch : List Char → Option (List Char)
  | [] => none
  | c :: rest =>
    match matchAt (c :: rest) with
    | some g => some g
    | none => fenceSearch rest

/-- The fence-extraction step of `parse_json_response`: replace the text
by the first fenced block's content when the regex matches. -/
def fenceStep (text : String) : String :=
  match fenceSearch text.data with
  | some g => String.mk g
  | none => text

/-- The brace scan of `parse_json_response`, relative to the first
character: depth +1 on every opening brace, -1 on every closing brace
(quoting ignored), returning the index where depth first returns to 0. -/
def findCloseIdx : List Char → Int → Option Nat
  | [], _ => none
  | c :: rest, depth =>
    if c = lbrace then (findCloseIdx rest (depth + 1)).map (fun i => i + 1)
    else if c = rbrace then
      if depth - 1 = 0 then some 0
      else (findCloseIdx rest (depth - 1)).map (fun i => i + 1)
    else (findCloseIdx rest depth).map (fun i => i + 1)

/-- The brace-slicing step: from the first opening brace, cut at the index
where the depth counter first returns to zero; leave the text unchanged
when there is no opening brace or the depth never returns to zero. -/
def braceSlice (cs : List Char) : List Char :=
  match cs.findIdx? (fun c => c == lbrace) with
  | none => cs
  | some start =>
    match findCloseIdx (cs.drop start) 0 with
    | none => cs
    | some i => (cs.drop start).take (i + 1)

/-- The candidate JSON text handed to `json.loads`: the input after
fence extraction and brace slicing. -/
def candidateText (text : String) : String :=
  String.mk (braceSlice (fenceStep text).data)

/-- Python's `s[:n]` (first `n` code points). -/
def strTake (s : String) (n : Nat) : String :=
  String.mk (s.data.take n)

/-- The fallback structure returned when `json.loads` raises: empty
`inferred_metadata` and `assessments`, diagnostic `overall_notes`. -/
def degradedResult (candidate : String) : JsonValue :=
  JsonValue.obj
    [("inferred_metadata", JsonValue.obj []),
     ("assessments", JsonValue.obj []),
     ("overall_notes",
       JsonValue.str ("Failed to parse AI response. Raw response: " ++ strTake candidate 500))]

/-- `parse_json_response(text)`: fence extraction, brace slicing, strict
JSON parse, with the degraded fallback on parse failure. -/
def parse_json_response (text : String) : JsonValue :=
  match jsonParse (candidateText text) with
  | some v => v
  | none => degradedResult (candidateText text)

/-- `'", ".join(f'"{o}"' for o in options)'`. -/
def quoteStr (o : String) : String :=
  "\"" ++ o ++ "\""

/-- One AI-field instruction line of the prompt:
`- **<id>**: <label>. Must be one of: "<o1>", "<o2>", ...`. -/
def instrLine (f : AIField) : String :=
  "- **" ++ f.id ++ "**: " ++ f.label ++ ". Must be one of: "
    ++ String.intercalate ", " (f.options.map quoteStr) ++ "\n"

/-- One AI-field JSON-skeleton line of the prompt:
`    "<id>": "one of: <o1>, <o2>, ...",`. -/
def schemaLine (f : AIField) : String :=
  "    \"" ++ f.id ++ "\": \"one of: " ++ String.intercalate ", " f.options ++ "\",\n"

/-- One category block of the prompt (heading plus optional guidance). -/
def categoryBlock (c : Category) : String :=
  "\n### " ++ c.name ++ " (id: \"" ++ c.id ++ "\")\n"
    ++ (if c.guidance.getD "" ≠ "" then "Evaluation criteria:\n" ++ c.guidance.getD "" ++ "\n" else "")

/-- One assessments-skeleton line: `    "<cid>": "Your 2-4 sentence assessment paragraph...",`. -/
def assessLine (cid : String) : String :=
  "    \"" ++ cid ++ "\": \"Your 2-4 sentence assessment paragraph...\","

/-- The `metadata_context` block: header plus one line per non-empty
`(key, value)` pair, empty when the metadata dict is empty. -/
def metadataContext (metadata : List (String × String)) : String :=
  if metadata.isEmpty then ""
  else metadata.foldl
    (fun acc kv => if kv.2 ≠ "" then acc ++ ("- " ++ kv.1 ++ ": " ++ kv.2 ++ "\n") else acc)
    "\nUser-provided context about this sign:\n"

/-- The prompt literal up to the `metadata_context` interpolation. -/
def promptPart1 : String :=
  "You are a fair but thorough accessibility auditor evaluating a digital sign on a university campus for compliance with Section 504 accessibility standards. Your goal is to produce accurate, evidence-based assessments that identify real accessibility barriers while giving appropriate credit for things done well.\n\nIMPORTANT RATING PHILOSOPHY:\n- Be accurate and evidence-based. Assess what you can actually observe, not speculate about.\n- Give credit where due — if contrast is strong, say so. If headlines are large and clear, acknowledge it.\n- But also be honest about real problems — if body text or details (email addresses, URLs, fine print) appear small relative to likely viewing distance (6-12 feet in a lobby or hallway), flag it clearly.\n- Do NOT speculate about contrast ratios failing when the visual evidence shows clear, legible text. White or light text on a dark background (dark blue, black, dark green, dark teal) typically provides strong contrast. Only flag contrast when text genuinely blends into the background.\n- Do NOT flag subtle, low-opacity background design elements (watermarks, faint logos) as \"visual clutter\" unless they genuinely interfere with reading the foreground text.\n- Do NOT flag the absence of photographs as a negative. Diagrams, charts, and text-only layouts are perfectly valid.\n- DO flag these real accessibility issues when present:\n  * Text that is too small to read comfortably from typical viewing distance (6-12 feet)\n  * Dense, information-heavy layouts that pack too much content into a single slide — especially multi-step instructions, detailed bullet points, or lengthy paragraphs\n  * Email addresses, phone numbers, or contact info displayed in small text that would be hard to read or remember from a distance\n  * Signs that require multiple read-throughs to extract the key message\n  * Poor visual hierarchy where it\x27s unclear what to read first\n  * Insufficient whitespace making text feel cramped\n- \"Fully Accessible\" should be reserved for signs that are genuinely simple, clear, and readable at a glance — large text, minimal content, strong contrast, clean layout with no notable barriers. Most informational signs with detailed content will NOT qualify.\n- \"Mostly Accessible\" is appropriate for signs that do most things well (good contrast, clear fonts) but have minor concerns like slightly dense content or one area of small text.\n- \"Partially Accessible\" is appropriate when there are multiple clear issues — such as a combination of dense text, small details, and information overload.\n- \"Mostly Inaccessible\" or \"Fully Inaccessible\" should be reserved for signs with severe barriers (very poor contrast, unreadable text, completely inaccessible design).\n- The overall rating should honestly reflect how accessible the sign is to someone with low vision, cognitive disabilities, or who is simply passing by quickly.\n"

/-- The prompt literal between `metadata_context` and `ai_fields_instructions`. -/
def promptPart2 : String :=
  "\nAnalyze the attached photo of a digital sign and provide a detailed, balanced assessment for each category below.\n\nFor each category, write a 2-4 sentence assessment paragraph that:\n- Describes what you observe on the sign relevant to that category\n- Identifies genuine accessibility concerns with specific evidence from the image\n- Also acknowledges things done well — do not write purely negative assessments\n- Distinguishes between real accessibility barriers and minor design preferences\n\nImportant assessment guidelines:\n- For **Contrast and Color Blindness**: Evaluate contrast based on what you can actually see. White or light-colored text on dark backgrounds (dark blue, black, dark green, dark teal) generally provides good to excellent contrast — acknowledge this when present rather than speculating it might fail WCAG ratios. Only flag contrast as insufficient when text is genuinely hard to read or distinguish from the background. WCAG 2.1 requires 4.5:1 for normal text and 3:1 for large text. Flag any red/green or blue/yellow color combinations used without alternative indicators. Note if italics are used for large blocks of text.\n- For **Text Readability**: Critically assess whether ALL text on the sign — including the smallest text like contact info, fine print, and detailed instructions — can be read from 6-12 feet away. A sign can have great headlines but still fail readability if the body text, email addresses, or detailed instructions are too small. Flag signs that try to pack too much information into a single display. Flag multi-step instructions that would be hard to absorb quickly. Flag email addresses or contact details displayed in small text. Consider whether someone walking past could get the key message and act on it without stopping to squint. Acknowledge positives like QR codes, clear headlines, or logical organization.\n- For **Image Clarity**: Evaluate overall visual organization and clarity. If the sign uses no photographs, that is fine — evaluate the layout, graphics, and visual hierarchy on their own merits. Subtle background design elements (watermarks, faint logos) are acceptable if they don\x27t interfere with readability. Flag genuine issues: truly cluttered layouts, images that obscure text, low resolution graphics, or confusing visual hierarchy.\n- For **Interactive Display**: If the sign is NOT interactive, simply write \"N/A - This is not an interactive display.\" If it IS interactive, assess button height (36-42 inches ADA standard), touch element reach (10-inch range), and wayfinding accessibility.\n- If the sign appears to be **off, blank, or not displaying content**, note this clearly and rate it as \"Not Accessible.\"\n\nAlso determine the following from the image:\n"

/-- The prompt literal between `ai_fields_instructions` and `rating_options_str`. -/
def promptPart3 : String :=
  "- Any visible building or location identifiers\n- Any other relevant contextual details\n\nBased on your assessment, suggest an overall accessibility rating that fairly reflects the sign\x27s actual accessibility. Be honest — acknowledge strengths but do not let good contrast or nice headlines override real concerns about text size, information density, or readability of details. Must be one of: "

/-- The prompt literal between `rating_options_str` and `ai_fields_schema`. -/
def promptPart4 : String :=
  "\n\nReturn your response as valid JSON matching this exact schema. Do NOT wrap it in markdown code fences.\n\n\x7b\n  \"inferred_metadata\": \x7b\n"

/-- The prompt literal between `ai_fields_schema` and the assessments skeleton. -/
def promptPart5 : String :=
  "    \"building\": \"building name if visible, or null\",\n    \"additional_context\": \"any other observations\"\n  \x7d,\n  \"assessments\": \x7b\n"

/-- The prompt literal between the assessments skeleton and the joined rating options. -/
def promptPart6 : String :=
  "\n  \x7d,\n  \"accessibility_rating\": \"one of: "

/-- The prompt literal between the joined rating options and `categories_text`. -/
def promptPart7 : String :=
  "\",\n  \"final_comments\": \"Any additional accessibility observations not covered by the categories above\",\n  \"overall_notes\": \"Extra context about the sign environment, placement, or other relevant details\"\n\x7d\n\nCategories to evaluate:\n"

/-- `build_assessment_prompt(config, metadata)`: the full prompt, with
every interpolation of the Python f-string made explicit. -/
def build_assessment_prompt (config : Config) (metadata : List (String × String)) : String :=
  let metadata_context := metadataContext metadata
  let ai_fields_instructions := config.ai_inferred_fields.foldl (fun acc f => acc ++ instrLine f) ""
  let ai_fields_schema := config.ai_inferred_fields.foldl (fun acc f => acc ++ schemaLine f) ""
  let categories_text := config.categories.foldl (fun acc c => acc ++ categoryBlock c) ""
  let category_ids := config.categories.map (fun c => c.id)
  let rating_options_str := String.intercalate ", " (config.rating_options.map quoteStr)
  promptPart1 ++ metadata_context ++ promptPart2 ++ ai_fields_instructions ++ promptPart3
    ++ rating_options_str ++ promptPart4 ++ ai_fields_schema ++ promptPart5
    ++ String.intercalate "\n" (category_ids.map assessLine) ++ promptPart6
    ++ String.intercalate ", " config.rating_options ++ promptPart7 ++ categories_text

/-- Concatenation of the images of a list under a string-producing
function (the closed form of the `+=` accumulation loops). -/
def joinMap (f : α → String) : List α → String
  | [] => ""
  | x :: xs => f x ++ joinMap f xs

theorem foldl_push (l : List α) (f : α → β) (init : List β) :
    l.foldl (fun acc x => acc ++ [f x]) init = init ++ l.map f := by
  induction l generalizing init with
  | nil => simp
  | cons x xs ih => simp [ih]

theorem build_header_row_eq (config : Config) :
    build_header_row config =
      ["Timestamp"]
        ++ config.metadata_fields.map (fun f => (lookup? LABEL_OVERRIDES f.id).getD f.label)
        ++ config.ai_inferred_fields.map (fun f => f.label)
        ++ ["Image Link"]
        ++ config.categories.map (fun c => c.name)
        ++ ["Accessibility Rating", "AI Additional Comments", "Assessor Comments",
            "Overall Notes", "AI Additional Context"] := by
  simp [build_header_row, foldl_push]

theorem build_data_row_eq (config : Config) (ts : String) (s : Submission) :
    build_data_row config ts s =
      [ts] ++ config.metadata_fields.map (metadataCell s.metadata)
        ++ config.ai_inferred_fields.map (fun f => lookupD s.inferred_metadata f.id "")
        ++ [s.image_link]
        ++ config.categories.map (fun c => lookupD s.assessments c.id "")
        ++ [s.accessibility_rating, s.final_comments, s.assessor_comments, s.overall_notes,
            extraInferred config s] := by
  simp [build_data_row, foldl_push]

/-- Claim C1: for every schema and submission input, the header sequence of
`build_header_row` and the data row built inside `append_to_sheet` have
equal length, so column i of every appended row aligns with column i of
the header. -/
theorem claim_C1 (config : Config) (ts : String) (s : Submission) :
    (build_header_row config).length = (build_data_row config ts s).length := by
  rw [build_header_row_eq, build_data_row_eq]
  simp

/-- Claim C3, counterexample: on the empty schema the header produced by
`build_header_row` matches the claimed sequence under neither reading of
the optional `Assessor Comments` column — the code emits
`AI Additional Comments` (not `Final Comments`) and always emits
`Assessor Comments`, before `Overall Notes`. -/
theorem claim_C3_counterexample :
    build_header_row (⟨[], [], [], []⟩ : Config) ≠ specHeader (⟨[], [], [], []⟩ : Config) true ∧
    build_header_row (⟨[], [], [], []⟩ : Config) ≠ specHeader (⟨[], [], [], []⟩ : Config) false := by
  constructor
  · decide
  · decide

/-- Claim C3, amended: for every schema, `build_header_row` produces
exactly `Timestamp`, one column per metadata field (label-override table
falling back to the field's label), one column per AI-inferred field (its
label), `Image Link`, one column per category (its display name),
`Accessibility Rating`, then the fixed trailing columns
`AI Additional Comments`, `Assessor Comments` (always present),
`Overall Notes`, `AI Additional Context`. -/
theorem claim_C3_amended (config : Config) :
    build_header_row config =
      ["Timestamp"]
        ++ config.metadata_fields.map (fun f => (lookup? LABEL_OVERRIDES f.id).getD f.label)
        ++ config.ai_inferred_fields.map (fun f => f.label)
        ++ ["Image Link"]
        ++ config.categories.map (fun c => c.name)
        ++ ["Accessibility Rating", "AI Additional Comments", "Assessor Comments",
            "Overall Notes", "AI Additional Context"] :=
  build_header_row_eq config

theorem metadataCell_eq_claim (m : List (String × String)) (f : MetaField) :
    metadataCell m f = claimMetaCell m f.id := by
  unfold metadataCell claimMetaCell lookupD
  cases h : lookup? m (f.id ++ "_other") with
  | none => simp [h]
  | some ov => simp [h]

/-- Claim C4: in the row built inside `append_to_sheet`, the cell for the
i-th metadata field (column 1 + i) is the submitted value for that field
id, except that when that value is the sentinel `"Other"` and the paired
`"<id>_other"` key is present with a non-empty value the cell is exactly
`"Other: <that value>"`. -/
theorem claim_C4 (config : Config) (ts : String) (s : Submission) (i : Nat) (f : MetaField)
    (h : config.metadata_fields[i]? = some f) :
    (build_data_row config ts s)[i + 1]? = some (claimMetaCell s.metadata f.id) := by
  have hi : i < config.metadata_fields.length := by
    by_contra hge
    push_neg at hge
    rw [List.getElem?_eq_none hge] at h
    cases h
  rw [build_data_row_eq]
  simp only [List.append_assoc, List.singleton_append, List.cons_append, List.nil_append]
  rw [List.getElem?_cons_succ]
  rw [List.getElem?_append_left (by simpa using hi)]
  rw [List.getElem?_map, h]
  simp [metadataCell_eq_claim]

/-- Claim C4, witness: with metadata
`[("building_floor", "Other"), ("building_floor_other", "Mezzanine")]`
the projected cell for `building_floor` is exactly `"Other: Mezzanine"`. -/
theorem claim_C4_witness :
    (⟨[⟨"building_floor", "Building Floor"⟩], [], [], []⟩ : Config).metadata_fields[0]? =
        some ⟨"building_floor", "Building Floor"⟩ ∧
    (build_data_row ⟨[⟨"building_floor", "Building Floor"⟩], [], [], []⟩ "2024-01-01 00:00:00 UTC"
        ⟨[("building_floor", "Other"), ("building_floor_other", "Mezzanine")],
         [], [], "", "", "", "", ""⟩)[0 + 1]? =
      some (claimMetaCell
        [("building_floor", "Other"), ("building_floor_other", "Mezzanine")] "building_floor") ∧
    claimMetaCell [("building_floor", "Other"), ("building_floor_other", "Mezzanine")]
        "building_floor" = "Other: Mezzanine" :=
  ⟨rfl,
   claim_C4 ⟨[⟨"building_floor", "Building Floor"⟩], [], [], []⟩ "2024-01-01 00:00:00 UTC"
     ⟨[("building_floor", "Other"), ("building_floor_other", "Mezzanine")],
      [], [], "", "", "", "", ""⟩ 0 ⟨"building_floor", "Building Floor"⟩ rfl,
   rfl⟩

theorem ats_overwrite (config : Config) (sheet : Sheet) (readOk : Bool) (ts : String)
    (s : Submission) (h : (if readOk then readCell sheet 1 1 else none) ≠ some "Timestamp") :
    append_to_sheet config sheet readOk ts s =
      appendRow (writeHeaderRow sheet (build_header_row config)) (build_data_row config ts s) := by
  simp [append_to_sheet, h]

theorem ats_keep (config : Config) (sheet : Sheet) (readOk : Bool) (ts : String)
    (s : Submission) (h : (if readOk then readCell sheet 1 1 else none) = some "Timestamp") :
    append_to_sheet config sheet readOk ts s = appendRow sheet (build_data_row config ts s) := by
  simp [append_to_sheet, h]

/-- Claim C5: before appending, the orchestrator reads the persisted first
cell; exactly when that read does not produce `"Timestamp"` (including a
failed read, modelled by `readOk = false`, or an absent cell) row 1 is
overwritten with a freshly computed header; when the read produces
`"Timestamp"` the sheet is left untouched and only the append occurs. -/
theorem claim_C5 (config : Config) (sheet : Sheet) (readOk : Bool) (ts : String)
    (s : Submission) :
    ((if readOk then readCell sheet 1 1 else none) ≠ some "Timestamp" →
      append_to_sheet config sheet readOk ts s =
        appendRow (writeHeaderRow sheet (build_header_row config)) (build_data_row config ts s)) ∧
    ((if readOk then readCell sheet 1 1 else none) = some "Timestamp" →
      append_to_sheet config sheet readOk ts s = appendRow sheet (build_data_row config ts s)) :=
  ⟨ats_overwrite config sheet readOk ts s, ats_keep config sheet readOk ts s⟩

/-- Claim C5, witness: with persisted first cell `"Version1"` row 1 is
overwritten before the append; with `"Timestamp"` only the append occurs. -/
theorem claim_C5_witness :
    ((if true then readCell ⟨[["Version1"]]⟩ 1 1 else none) ≠ some "Timestamp" ∧
      append_to_sheet (⟨[], [], [], []⟩ : Config) ⟨[["Version1"]]⟩ true "t"
          (⟨[], [], [], "", "", "", "", ""⟩ : Submission) =
        appendRow (writeHeaderRow ⟨[["Version1"]]⟩ (build_header_row ⟨[], [], [], []⟩))
          (build_data_row ⟨[], [], [], []⟩ "t" ⟨[], [], [], "", "", "", "", ""⟩)) ∧
    ((if true then readCell ⟨[["Timestamp"]]⟩ 1 1 else none) = some "Timestamp" ∧
      append_to_sheet (⟨[], [], [], []⟩ : Config) ⟨[["Timestamp"]]⟩ true "t"
          (⟨[], [], [], "", "", "", "", ""⟩ : Submission) =
        appendRow ⟨[["Timestamp"]]⟩
          (build_data_row ⟨[], [], [], []⟩ "t" ⟨[], [], [], "", "", "", "", ""⟩)) :=
  ⟨⟨by decide,
    (claim_C5 ⟨[], [], [], []⟩ ⟨[["Version1"]]⟩ true "t" ⟨[], [], [], "", "", "", "", ""⟩).1
      (by decide)⟩,
   ⟨by decide,
    (claim_C5 ⟨[], [], [], []⟩ ⟨[["Timestamp"]]⟩ true "t" ⟨[], [], [], "", "", "", "", ""⟩).2
      (by decide)⟩⟩

theorem readCell_ats (config : Config) (sheet : Sheet) (readOk : Bool) (ts : String)
    (s : Submission) :
    readCell (append_to_sheet config sheet readOk ts s) 1 1 = some "Timestamp" := by
  by_cases h : (if readOk then readCell sheet 1 1 else none) = some "Timestamp"
  · rw [ats_keep config sheet readOk ts s h]
    have hrc : readCell sheet 1 1 = some "Timestamp" := by
      cases readOk with
      | false => simp at h
      | true => simpa using h
    cases hr : sheet.rows with
    | nil => rw [readCell] at hrc; simp [hr] at hrc
    | cons r0 rest =>
      have h0 : r0[0]? = some "Timestamp" := by
        rw [readCell, hr] at hrc
        simpa using hrc
      simp [readCell, appendRow, hr, h0]
  · rw [ats_overwrite config sheet readOk ts s h]
    have hhd : (build_header_row config)[0]? = some "Timestamp" := by
      rw [build_header_row_eq]; simp
    cases hr : sheet.rows with
    | nil => simp [readCell, appendRow, writeHeaderRow, hr, hhd]
    | cons r0 rest => simp [readCell, appendRow, writeHeaderRow, hr, hhd]

/-- Claim C10: for every config the first header cell is the literal
`"Timestamp"`, so the header-drift reconciliation is idempotent: after any
submission, the persisted first cell reads `"Timestamp"`, and a subsequent
submission (whose read succeeds) leaves row 1 untouched and only appends. -/
theorem claim_C10 (config : Config) (sheet : Sheet) (readOk : Bool) (ts ts2 : String)
    (s s2 : Submission) :
    (build_header_row config).head? = some "Timestamp" ∧
    readCell (append_to_sheet config sheet readOk ts s) 1 1 = some "Timestamp" ∧
    append_to_sheet config (append_to_sheet config sheet readOk ts s) true ts2 s2 =
      appendRow (append_to_sheet config sheet readOk ts s) (build_data_row config ts2 s2) := by
  refine ⟨by rw [build_header_row_eq]; simp, readCell_ats config sheet readOk ts s, ?_⟩
  exact ats_keep config _ true ts2 s2 (by simpa using readCell_ats config sheet readOk ts s)

/-- Claim C2, counterexample: on the input `"x```...```"` whose fenced
content fails to parse, the degraded `overall_notes` embeds the candidate
text `"notjson"`, and no truncation of the raw input (in particular not
the raw input itself, which is shorter than 500 characters) occurs in it:
the raw input is not an infix of the notes string. -/
theorem claim_C2_counterexample :
    parse_json_response "x```\nnotjson\n```" = degradedResult "notjson" ∧
    ¬ (strTake "x```\nnotjson\n```" 500).data <:+:
        ("Failed to parse AI response. Raw response: notjson").data := by
  constructor
  · rfl
  · decide

/-- Claim C2, amended: `parse_json_response` is total by construction, and
whenever the candidate text (the input after fence extraction and brace
slicing) fails strict JSON parsing, it returns the degraded structure with
empty `inferred_metadata` and `assessments` mappings and an
`overall_notes` embedding a truncated (at most 500-character) copy of the
candidate text — which coincides with the raw input only when those two
steps leave the text unchanged. -/
theorem claim_C2_amended (text : String)
    (h : jsonParse (candidateText text) = none) :
    parse_json_response text = degradedResult (candidateText text) ∧
    degradedResult (candidateText text) =
      JsonValue.obj
        [("inferred_metadata", JsonValue.obj []),
         ("assessments", JsonValue.obj []),
         ("overall_notes",
           JsonValue.str
             ("Failed to parse AI response. Raw response: " ++ strTake (candidateText text) 500))] ∧
    (strTake (candidateText text) 500).data.length ≤ 500 := by
  refine ⟨?_, rfl, ?_⟩
  · rw [parse_json_response, h]
  · simp [strTake]

/-- Claim C2, witness: the empty input fails to parse and yields the
degraded structure. -/
theorem claim_C2_witness :
    jsonParse (candidateText "") = none ∧
    parse_json_response "" = degradedResult (candidateText "") :=
  ⟨rfl, (claim_C2_amended "" rfl).1⟩

theorem findIdx?_none_of_no_lbrace (cs : List Char) (h : ∀ c ∈ cs, c ≠ lbrace) :
    ∀ i, List.findIdx? (fun c => c == lbrace) cs i = none := by
  induction cs with
  | nil => intro i; rfl
  | cons c rest ih =>
    intro i
    rw [List.findIdx?_cons]
    have hc : (c == lbrace) = false := by
      simpa using h c (by simp)
    rw [hc]
    simp only [Bool.false_eq_true, if_false]
    exact ih (fun x hx => h x (by simp [hx])) (i + 1)

theorem braceSlice_no_lbrace (cs : List Char) (h : ∀ c ∈ cs, c ≠ lbrace) :
    braceSlice cs = cs := by
  rw [braceSlice, findIdx?_none_of_no_lbrace cs h 0]

/-- Claim C7, counterexample: `"[]"` contains no opening brace, yet
`parse_json_response` does not fail to a degraded result — Python's
`json.loads` is still attempted on the whole text and succeeds, returning
the parsed array. -/
theorem claim_C7_counterexample :
    parse_json_response "[]" = JsonValue.arr [] ∧
    JsonValue.arr [] ≠ degradedResult (candidateText "[]") := by
  constructor
  · rfl
  · intro h
    cases h

/-- Claim C7, amended: when the text after fence extraction contains no
`\x7b`, the brace-slicing step leaves it unchanged and the whole text is
handed to strict JSON parsing; the result is degraded exactly when that
parse fails (so the empty string and plain prose degrade, but valid JSON
scalars or arrays parse and are returned as-is). -/
theorem claim_C7_amended (text : String)
    (h : ∀ c ∈ (fenceStep text).data, c ≠ lbrace) :
    candidateText text = fenceStep text ∧
    (jsonParse (fenceStep text) = none →
      parse_json_response text = degradedResult (fenceStep text)) ∧
    (∀ v, jsonParse (fenceStep text) = some v → parse_json_response text = v) := by
  have hc : candidateText text = fenceStep text := by
    rw [candidateText, braceSlice_no_lbrace _ h]
  refine ⟨hc, ?_, ?_⟩
  · intro hp
    rw [parse_json_response, hc, hp]
  · intro v hp
    rw [parse_json_response, hc, hp]

/-- Claim C7, witness: `"hello"` has no fence and no brace and fails to
parse, so it degrades; this discharges the amended claim's hypothesis at a
concrete input. -/
theorem claim_C7_witness :
    (∀ c ∈ (fenceStep "hello").data, c ≠ lbrace) ∧
    parse_json_response "hello" = degradedResult (fenceStep "hello") :=
  ⟨by decide, (claim_C7_amended "hello" (by decide)).2.1 rfl⟩

theorem findCloseIdx_map (f : Char → Char) (cs : List Char) (d : Int)
    (hl : ∀ c, f c = lbrace ↔ c = lbrace) (hr : ∀ c, f c = rbrace ↔ c = rbrace) :
    findCloseIdx (cs.map f) d = findCloseIdx cs d := by
  induction cs generalizing d with
  | nil => rfl
  | cons c rest ih =>
    simp only [List.map_cons, findCloseIdx]
    by_cases h1 : c = lbrace
    · rw [if_pos ((hl c).mpr h1), if_pos h1, ih]
    · have h1f : ¬ f c = lbrace := fun hh => h1 ((hl c).mp hh)
      rw [if_neg h1f, if_neg h1]
      by_cases h2 : c = rbrace
      · rw [if_pos ((hr c).mpr h2), if_pos h2, ih]
      · have h2f : ¬ f c = rbrace := fun hh => h2 ((hr c).mp hh)
        rw [if_neg h2f, if_neg h2, ih]

/-- Claim C8: the brace scan counts every opening and closing brace
uniformly, regardless of quoting — any character substitution preserving
exactly the two brace characters leaves the scan unchanged — and on the
valid JSON object `\x7b"a": "\x7d"\x7d`, whose string value holds a
literal closing brace, the candidate substring stops at that brace, is a
strict truncation of the object, and the whole extraction degrades. -/
theorem claim_C8 :
    (∀ (f : Char → Char) (cs : List Char) (d : Int),
      (∀ c, f c = lbrace ↔ c = lbrace) → (∀ c, f c = rbrace ↔ c = rbrace) →
      findCloseIdx (cs.map f) d = findCloseIdx cs d) ∧
    jsonParse "\x7b\"a\": \"\x7d\"\x7d" = some (JsonValue.obj [("a", JsonValue.str "\x7d")]) ∧
    candidateText "\x7b\"a\": \"\x7d\"\x7d" = "\x7b\"a\": \"\x7d" ∧
    "\x7b\"a\": \"\x7d" ≠ "\x7b\"a\": \"\x7d\"\x7d" ∧
    parse_json_response "\x7b\"a\": \"\x7d\"\x7d" = degradedResult "\x7b\"a\": \"\x7d" :=
  ⟨findCloseIdx_map, rfl, rfl, by decide, rfl⟩

/-- Claim C8, witness: the substitution half applied to the identity
function on the example text. -/
theorem claim_C8_witness :
    findCloseIdx (("\x7b\"a\": \"\x7d\"\x7d").data.map (fun c => c)) 0 =
      findCloseIdx ("\x7b\"a\": \"\x7d\"\x7d").data 0 :=
  claim_C8.1 (fun c => c) ("\x7b\"a\": \"\x7d\"\x7d").data 0
    (fun _ => Iff.rfl) (fun _ => Iff.rfl)

theorem foldl_strcat (l : List α) (g : α → String) (init : String) :
    l.foldl (fun acc x => acc ++ g x) init = init ++ joinMap g l := by
  induction l generalizing init with
  | nil => simp [joinMap]
  | cons x xs ih => simp [joinMap, ih, String.append_assoc]

/-- Claim C9: for every schema and user metadata, the compiled prompt
contains, as one contiguous block each and in the schema's declared order,
one instruction line per AI-inferred field (naming the field id, its label
and its quoted option set joined with `", "`) and one JSON-skeleton line
per AI-inferred field of the form `"<id>": "one of: <opt1, opt2, ...>",`
(options joined with `", "`), the instruction block preceding the skeleton
block. -/
theorem claim_C9 (config : Config) (metadata : List (String × String)) :
    ∃ a b c : String,
      build_assessment_prompt config metadata =
        a ++ joinMap instrLine config.ai_inferred_fields
          ++ b ++ joinMap schemaLine config.ai_inferred_fields ++ c := by
  refine ⟨promptPart1 ++ metadataContext metadata ++ promptPart2,
    promptPart3 ++ String.intercalate ", " (config.rating_options.map quoteStr) ++ promptPart4,
    promptPart5
      ++ String.intercalate "\n" ((config.categories.map (fun c => c.id)).map assessLine)
      ++ promptPart6 ++ String.intercalate ", " config.rating_options ++ promptPart7
      ++ config.categories.foldl (fun acc c => acc ++ categoryBlock c) "", ?_⟩
  rw [build_assessment_prompt]
  rw [foldl_strcat config.ai_inferred_fields instrLine ""]
  rw [foldl_strcat config.ai_inferred_fields schemaLine ""]
  simp only [String.append_assoc]
  rfl

theorem isTicks_of_head_ne (x : Char) (l : List Char) (h : x ≠ btick) :
    isTicks (x :: l) = false := by
  match l with
  | [] => rfl
  | [b] => rfl
  | b :: c :: rest =>
    simp only [isTicks]
    simp [h]

theorem matchAt_of_head_ne (x : Char) (w : List Char) (h : x ≠ btick) :
    matchAt (x :: w) = none := by
  match w with
  | [] => rfl
  | [c2] => rfl
  | c2 :: c3 :: rest =>
    simp only [matchAt]
    rw [if_neg]
    intro hc
    exact h hc.1

theorem fenceSearch_skip (p rest : List Char) (hp : ∀ c ∈ p, c ≠ btick) :
    fenceSearch (p ++ rest) = fenceSearch rest := by
  induction p with
  | nil => rfl
  | cons x p' ih =>
    rw [List.cons_append, fenceSearch, matchAt_of_head_ne x _ (hp x (by simp))]
    exact ih (fun c hc => hp c (by simp [hc]))

theorem tailMatch_early_false (x : Char) (w : List Char) (hx : x ≠ btick)
    (hw : x = '\n' → isTicks w = false) : tailMatch (x :: w) = false := by
  rw [tailMatch, isTicks_of_head_ne x w hx]
  simp only [Bool.false_or]
  by_cases hxn : x = '\n'
  · simp [hxn, hw hxn]
  · simp [hxn]

theorem noEarly (l post : List Char) (hl : ∀ c ∈ l, c ≠ btick) :
    ∀ i, i < l.length →
      tailMatch (l.drop i ++ ('\n' :: btick :: btick :: btick :: post)) = false := by
  induction l with
  | nil => intro i hi; simp at hi
  | cons x l' ih =>
    intro i hi
    match i with
    | 0 =>
      simp only [List.drop_zero, List.cons_append]
      refine tailMatch_early_false x _ (hl x (by simp)) ?_
      intro _
      match hl' : l' with
      | [] =>
        simp only [List.nil_append]
        exact isTicks_of_head_ne '\n' _ (by decide)
      | y :: l'' =>
        simp only [List.cons_append]
        exact isTicks_of_head_ne y _ (hl y (by simp [hl']))
    | i' + 1 =>
      rw [List.drop_succ_cons]
      exact ih (fun c hc => hl c (by simp [hc])) i' (by simpa using hi)

theorem matchLazy_app (a tl : List Char)
    (hno : ∀ i, i < a.length → tailMatch (a.drop i ++ tl) = false)
    (ht : tailMatch tl = true) : matchLazy (a ++ tl) = some a := by
  induction a with
  | nil =>
    match htl : tl with
    | [] => simp [tailMatch, isTicks] at ht
    | c :: rest =>
      simp only [List.nil_append]
      rw [matchLazy, if_pos]
      exact ht
  | cons x a' ih =>
    rw [List.cons_append, matchLazy]
    have h0 := hno 0 (by simp)
    simp only [List.drop_zero, List.cons_append] at h0
    rw [if_neg (by simp [h0])]
    rw [ih (fun i hi => by
      have := hno (i + 1) (by simpa using hi)
      simpa using this)]
    rfl

theorem matchWs_fence (t post : List Char) (ht : ∀ c ∈ lbrace :: t, c ≠ btick) :
    matchWs ('\n' :: lbrace :: (t ++ ('\n' :: btick :: btick :: btick :: post))) =
      some (lbrace :: t) := by
  have htail : tailMatch ('\n' :: btick :: btick :: btick :: post) = true := by
    simp [tailMatch, isTicks]
  have hlazy : matchLazy (lbrace :: (t ++ ('\n' :: btick :: btick :: btick :: post))) =
      some (lbrace :: t) := by
    have h := matchLazy_app (lbrace :: t) ('\n' :: btick :: btick :: btick :: post)
      (noEarly (lbrace :: t) post ht) htail
    simpa [List.cons_append] using h
  have hrun : wsRun ('\n' :: lbrace :: (t ++ ('\n' :: btick :: btick :: btick :: post))) = 1 := by
    rw [wsRun, if_pos (by decide), wsRun, if_neg (by decide)]
  rw [matchWs, hrun]
  show (match matchNl1 ((('\n' :: lbrace ::
      (t ++ ('\n' :: btick :: btick :: btick :: post))) : List Char).drop 1) with
    | some g => some g
    | none => tryWs 0 ('\n' :: lbrace :: (t ++ ('\n' :: btick :: btick :: btick :: post)))) =
      some (lbrace :: t)
  simp only [List.drop_succ_cons, List.drop_zero]
  rw [matchNl1]
  simp only [if_neg (show ¬ lbrace = '\n' by decide)]
  rw [hlazy]

theorem matchAt_fence_tag (t post : List Char) (ht : ∀ c ∈ lbrace :: t, c ≠ btick) :
    matchAt (btick :: btick :: btick :: 'j' :: 's' :: 'o' :: 'n' ::
        '\n' :: lbrace :: (t ++ ('\n' :: btick :: btick :: btick :: post))) =
      some (lbrace :: t) := by
  rw [matchAt]
  rw [if_pos ⟨rfl, rfl, rfl⟩]
  show (match matchWs ('\n' :: lbrace :: (t ++ ('\n' :: btick :: btick :: btick :: post))) with
    | some g => some g
    | none => matchWs ('j' :: 's' :: 'o' :: 'n' ::
        '\n' :: lbrace :: (t ++ ('\n' :: btick :: btick :: btick :: post)))) =
      some (lbrace :: t)
  rw [matchWs_fence t post ht]

theorem matchAt_fence_untag (t post : List Char) (ht : ∀ c ∈ lbrace :: t, c ≠ btick) :
    matchAt (btick :: btick :: btick ::
        '\n' :: lbrace :: (t ++ ('\n' :: btick :: btick :: btick :: post))) =
      some (lbrace :: t) := by
  rw [matchAt]
  rw [if_pos ⟨rfl, rfl, rfl⟩]
  show matchWs ('\n' :: lbrace :: (t ++ ('\n' :: btick :: btick :: btick :: post))) =
    some (lbrace :: t)
  exact matchWs_fence t post ht

theorem fenceSearch_fence_tag (t post : List Char) (ht : ∀ c ∈ lbrace :: t, c ≠ btick) :
    fenceSearch (btick :: btick :: btick :: 'j' :: 's' :: 'o' :: 'n' ::
        '\n' :: lbrace :: (t ++ ('\n' :: btick :: btick :: btick :: post))) =
      some (lbrace :: t) := by
  rw [fenceSearch, matchAt_fence_tag t post ht]

theorem fenceSearch_fence_untag (t post : List Char) (ht : ∀ c ∈ lbrace :: t, c ≠ btick) :
    fenceSearch (btick :: btick :: btick ::
        '\n' :: lbrace :: (t ++ ('\n' :: btick :: btick :: btick :: post))) =
      some (lbrace :: t) := by
  rw [fenceSearch, matchAt_fence_untag t post ht]

theorem braceSlice_exact (t : List Char)
    (hclose : findCloseIdx (lbrace :: t) 0 = some ((lbrace :: t).length - 1)) :
    braceSlice (lbrace :: t) = lbrace :: t := by
  rw [braceSlice]
  have h1 : List.findIdx? (fun c => c == lbrace) (lbrace :: t) = some 0 := by
    rw [List.findIdx?_cons]
    simp
  rw [h1]
  simp only [List.drop_zero]
  simp only [List.length_cons, Nat.add_sub_cancel] at hclose
  rw [hclose]
  simp [List.take_succ_cons, List.take_length]

/-- Claim C6, amended: for every raw text of the shape
`pre ++ fence-open ++ j ++ fence-close ++ post` — a single triple-backtick
fenced block (optionally tagged `json`; no other backtick in `pre` or `j`)
whose content `j` is a valid JSON object starting at its opening brace and
whose brace scan closes exactly at its final character (no stray brace
inside string values) — the extractor returns the object parsed from
inside the first fenced block, ignoring the surrounding prose. -/
theorem claim_C6 (pre post j : String) (v : JsonValue) (tag : Bool)
    (hpre : ∀ c ∈ pre.data, c ≠ btick)
    (hj : ∀ c ∈ j.data, c ≠ btick)
    (hhead : j.data.head? = some lbrace)
    (hclose : findCloseIdx j.data 0 = some (j.data.length - 1))
    (hparse : jsonParse j = some v) :
    parse_json_response
      (pre ++ (if tag then "```json\n" else "```\n") ++ j ++ "\n```" ++ post) = v := by
  obtain ⟨t, hjd⟩ : ∃ t, j.data = lbrace :: t := by
    cases hd : j.data with
    | nil => rw [hd] at hhead; cases hhead
    | cons c t =>
      rw [hd] at hhead
      exact ⟨t, by rw [Option.some_inj.mp hhead.symm]⟩
  have ht : ∀ c ∈ lbrace :: t, c ≠ btick := by
    rw [← hjd]; exact hj
  have hct : candidateText
      (pre ++ (if tag then "```json\n" else "```\n") ++ j ++ "\n```" ++ post) = j := by
    have hsearch : fenceSearch
        (pre ++ (if tag then "```json\n" else "```\n") ++ j ++ "\n```" ++ post).data =
        some (lbrace :: t) := by
      cases tag with
      | true =>
        have hdata : (pre ++ "```json\n" ++ j ++ "\n```" ++ post).data =
            pre.data ++ (btick :: btick :: btick :: 'j' :: 's' :: 'o' :: 'n' ::
              '\n' :: lbrace :: (t ++ ('\n' :: btick :: btick :: btick :: post.data))) := by
          simp only [String.data_append, hjd, List.append_assoc, List.cons_append,
            List.nil_append]
          rfl
        simp only [if_true]
        rw [hdata, fenceSearch_skip _ _ hpre, fenceSearch_fence_tag t post.data ht]
      | false =>
        have hdata : (pre ++ "```\n" ++ j ++ "\n```" ++ post).data =
            pre.data ++ (btick :: btick :: btick ::
              '\n' :: lbrace :: (t ++ ('\n' :: btick :: btick :: btick :: post.data))) := by
          simp only [String.data_append, hjd, List.append_assoc, List.cons_append,
            List.nil_append]
          rfl
        show fenceSearch (pre ++ "```\n" ++ j ++ "\n```" ++ post).data = some (lbrace :: t)
        rw [hdata, fenceSearch_skip _ _ hpre, fenceSearch_fence_untag t post.data ht]
    rw [candidateText, fenceStep, hsearch]
    show String.mk (braceSlice (lbrace :: t)) = j
    rw [braceSlice_exact t (by rw [← hjd]; exact hclose)]
    rw [← hjd]
  rw [parse_json_response, hct, hparse]

/-- Claim C6, witness: the spec's own example — prose, a `json`-tagged
fence holding a valid object, trailing prose — extracts to the parsed
object with `accessibility_rating = "Partially Accessible"`. -/
theorem claim_C6_witness :
    (∀ c ∈ ("Here you go:\n").data, c ≠ btick) ∧
    (∀ c ∈ ("\x7b\"accessibility_rating\":\"Partially Accessible\",\"assessments\":\x7b\x7d,\"inferred_metadata\":\x7b\x7d\x7d").data, c ≠ btick) ∧
    ("\x7b\"accessibility_rating\":\"Partially Accessible\",\"assessments\":\x7b\x7d,\"inferred_metadata\":\x7b\x7d\x7d").data.head? = some lbrace ∧
    findCloseIdx ("\x7b\"accessibility_rating\":\"Partially Accessible\",\"assessments\":\x7b\x7d,\"inferred_metadata\":\x7b\x7d\x7d").data 0 =
      some (("\x7b\"accessibility_rating\":\"Partially Accessible\",\"assessments\":\x7b\x7d,\"inferred_metadata\":\x7b\x7d\x7d").data.length - 1) ∧
    jsonParse "\x7b\"accessibility_rating\":\"Partially Accessible\",\"assessments\":\x7b\x7d,\"inferred_metadata\":\x7b\x7d\x7d" =
      some (JsonValue.obj
        [("accessibility_rating", JsonValue.str "Partially Accessible"),
         ("assessments", JsonValue.obj []),
         ("inferred_metadata", JsonValue.obj [])]) ∧
    parse_json_response
      ("Here you go:\n" ++ (if true then "```json\n" else "```\n") ++
        "\x7b\"accessibility_rating\":\"Partially Accessible\",\"assessments\":\x7b\x7d,\"inferred_metadata\":\x7b\x7d\x7d" ++
        "\n```" ++ "\nThanks!") =
      JsonValue.obj
        [("accessibility_rating", JsonValue.str "Partially Accessible"),
         ("assessments", JsonValue.obj []),
         ("inferred_metadata", JsonValue.obj [])] :=
  ⟨by decide, by decide, rfl, by decide,
   rfl,
   claim_C6 "Here you go:\n" "\nThanks!"
     "\x7b\"accessibility_rating\":\"Partially Accessible\",\"assessments\":\x7b\x7d,\"inferred_metadata\":\x7b\x7d\x7d"
     (JsonValue.obj
       [("accessibility_rating", JsonValue.str "Partially Accessible"),
        ("assessments", JsonValue.obj []),
        ("inferred_metadata", JsonValue.obj [])]) true
     (by decide) (by decide) rfl (by decide) rfl⟩

/-- Claim C6, counterexample: the fenced content `\x7b"a": "\x7d"\x7d` is a
valid JSON object, yet the extractor returns a degraded result rather than
the object parsed from inside the fence — the brace scan truncates at the
closing brace inside the string value. -/
theorem claim_C6_counterexample :
    jsonParse "\x7b\"a\": \"\x7d\"\x7d" = some (JsonValue.obj [("a", JsonValue.str "\x7d")]) ∧
    parse_json_response "prose\n```json\n\x7b\"a\": \"\x7d\"\x7d\n```\nmore" =
      degradedResult "\x7b\"a\": \"\x7d" ∧
    degradedResult "\x7b\"a\": \"\x7d" ≠ JsonValue.obj [("a", JsonValue.str "\x7d")] := by
  refine ⟨rfl, rfl, ?_⟩
  intro h
  have h2 := congrArg (fun x => match x with
    | JsonValue.obj l => l.length
    | _ => 0) h
  simp [degradedResult] at h2
